import Mathlib

/-
Verification of the ripfs registry core: a shallow embedding of the
image-ingestion writer (internal/registry/add.go), the graph-walking reader
(internal/registry/registry.go), the registry HTTP handlers, the IPNS-backed
naming service (updateCidMap in the add command, IpnsCidMapper in
internal/registry/mapper.go) and the pod-relocating admission webhook.

Modelling conventions:
- The content-addressed store (IPFS) is a list of blobs; a CID is 1 + the
  index of the blob in the store (0 models the zero value cid.Cid\x7b\x7d, which
  no content ever has, so opening it fails).  Adding bytes already present
  returns the existing CID: IPFS CIDs are a deterministic function of the
  content, so re-adding identical bytes yields the identical CID.
- Serialized JSON content is represented by the inductive Blob: json.Marshal
  of the Go structures is modelled as the corresponding constructor
  application (distinct structures marshal to distinct JSON).
- OCI digests are strings; v1.SHA256 is modelled by blobDigest, which
  prefixes an injective rendering of the blob with "sha256:" (a model of a
  collision-free hash).
- A descriptor URL "ipfs://<cid>" is modelled by Locator.ipfsLoc; URLs with
  a different scheme or an undecodable cid get their own constructors.
- Go functions returning (T, error) become GoResult T; a Go runtime panic
  is the distinguished outcome GoResult.panicked.
-/

set_option maxRecDepth 16384

namespace Ripfs

/-- Raw byte content (layer bytes, raw config bytes) modelled as a string. -/
abbrev ByteSeq := String

/-- Store content identifier.  0 models the invalid zero value cid.Cid\x7b\x7d. -/
abbrev Cid := Nat

/-- Outcome of a Go call: a value, an error, or a runtime panic. -/
inductive GoResult (α : Type) where
  | ok (a : α)
  | err (msg : String)
  | panicked
deriving DecidableEq, Repr

/-- One entry of a descriptor's urls slice, in parsed form:
"ipfs://<cid>" with a decodable cid, a url with a non-ipfs scheme, or
"ipfs://<junk>" whose host part does not decode as a cid. -/
inductive Locator where
  | ipfsLoc (c : Cid)
  | otherScheme (s : String)
  | ipfsBad (s : String)
deriving DecidableEq, Repr

/-- OCI descriptor (mediaType, digest, size, urls), as used in manifests and
indexes.  Constant fields that no modelled code reads (annotations,
platform) are omitted. -/
structure Descriptor where
  mediaType : String
  digest : String
  size : Int
  urls : List Locator
deriving DecidableEq, Repr

/-- v1.Manifest: config descriptor plus ordered layer descriptors. -/
structure ManifestObj where
  mediaType : String
  config : Descriptor
  layers : List Descriptor
deriving DecidableEq, Repr

/-- v1.IndexManifest: mediaType plus manifest descriptors
(schemaVersion is the constant 2 and is not read by any modelled code). -/
structure IndexObj where
  mediaType : String
  manifests : List Descriptor
deriving DecidableEq, Repr

/-- The IpfsManifest struct of add.go: the outer wrapper / pointer record
\x7bmediaType, digest, size, urls\x7d. -/
structure WrapperObj where
  mediaType : String
  digest : String
  size : Int
  urls : List Locator
deriving DecidableEq, Repr

/-- A stored blob: raw bytes, or the JSON serialization of one of the
record shapes the system writes (json.Marshal modelled as the constructor). -/
inductive Blob where
  | raw (bytes : ByteSeq)
  | manifestJson (m : ManifestObj)
  | indexJson (idx : IndexObj)
  | wrapperJson (w : WrapperObj)
  | mapJson (entries : List (String × String))
deriving DecidableEq, Repr

/-- Rendering of a locator back to its url string. -/
def encLocator : Locator → String
  | .ipfsLoc c => "ipfs://" ++ toString c
  | .otherScheme s => s
  | .ipfsBad s => "ipfs://" ++ s

/-- Rendering of a list with delimiters. -/
def encList (f : α → String) (l : List α) : String :=
  "[" ++ String.intercalate "," (l.map f) ++ "]"

/-- Rendering of a descriptor. -/
def encDescriptor (d : Descriptor) : String :=
  "(" ++ d.mediaType ++ ";" ++ d.digest ++ ";" ++ toString d.size ++ ";"
      ++ encList encLocator d.urls ++ ")"

/-- Serialized bytes of a blob, as a delimited rendering (models the JSON
text for record blobs; raw blobs render with a distinguishing prefix). -/
def encBlob : Blob → String
  | .raw bs => "raw:" ++ bs
  | .manifestJson m =>
      "manifest:(" ++ m.mediaType ++ ";" ++ encDescriptor m.config ++ ";"
        ++ encList encDescriptor m.layers ++ ")"
  | .indexJson idx =>
      "index:(" ++ idx.mediaType ++ ";" ++ encList encDescriptor idx.manifests ++ ")"
  | .wrapperJson w =>
      "wrapper:(" ++ w.mediaType ++ ";" ++ w.digest ++ ";" ++ toString w.size ++ ";"
        ++ encList encLocator w.urls ++ ")"
  | .mapJson es =>
      "map:" ++ encList (fun p => p.1 ++ "=" ++ p.2) es

/-- v1.SHA256 of a blob's serialized bytes, modelled via the injective
rendering (a collision-free hash). -/
def blobDigest (b : Blob) : String := "sha256:" ++ encBlob b

/-- Size reported by v1.SHA256 for a blob's serialized bytes. -/
def blobSize (b : Blob) : Int := (encBlob b).length

/-- The bytes a handler writes when serving a blob: raw content verbatim,
record blobs as their serialization. -/
def blobBody : Blob → ByteSeq
  | .raw bs => bs
  | b => encBlob b

/-- The content-addressed store: the list of distinct blobs ever added. -/
abbrev Store := List Blob

/-- First index of a blob in the store, if present. -/
def findIdx : List Blob → Blob → Option Nat
  | [], _ => none
  | x :: xs, b => if x = b then some 0 else (findIdx xs b).map (· + 1)

/-- Unixfs().Add with pin and cid-version 1: content addressing returns the
existing CID when the bytes are already stored, else appends. -/
def storeAdd (s : Store) (b : Blob) : Store × Cid :=
  match findIdx s b with
  | some i => (s, i + 1)
  | none => (s ++ [b], s.length + 1)

/-- Unixfs().Get: fetch a blob by CID; the zero cid never resolves. -/
def storeGet (s : Store) (c : Cid) : Option Blob :=
  if c = 0 then none else s.get? (c - 1)

/-- Validity check of digest.Parse, modelled as the presence of the
algorithm separator (every digest this system writes is "sha256:<hex>";
a tag such as "latest" has no separator and fails). -/
def digestOk (s : String) : Bool := s.data.any (fun c => c == ':')

/-- digest.Parse: returns the digest string unchanged when well-formed. -/
def digestParse (s : String) : GoResult String :=
  if digestOk s then .ok s else .err ("invalid digest format: " ++ s)

/-- The \x7bcid\x7d path segment of a request, in parsed form: either a string
that cid.Decode accepts (carrying the decoded cid) or a malformed one. -/
inductive CidParam where
  | valid (c : Cid)
  | malformed (s : String)
deriving DecidableEq, Repr

/-- cid.Decode on the name parameter. -/
def cidDecode : CidParam → GoResult Cid
  | .valid c => .ok c
  | .malformed s => .err ("cid decode failed: " ++ s)

/-- Decidable equality of Go-style fallible results. -/
instance exceptDecEq {e a : Type} [DecidableEq e] [DecidableEq a] : DecidableEq (Except e a)
  | .error e1, .error e2 =>
    if h : e1 = e2 then .isTrue (by rw [h]) else .isFalse (fun hc => h (Except.error.inj hc))
  | .error _, .ok _ => .isFalse Except.noConfusion
  | .ok _, .error _ => .isFalse Except.noConfusion
  | .ok a1, .ok a2 =>
    if h : a1 = a2 then .isTrue (by rw [h]) else .isFalse (fun hc => h (Except.ok.inj hc))

def ociImageIndexMT : String := "application/vnd.oci.image.index.v1+json"

def ociImageConfigMT : String := "application/vnd.oci.image.config.v1+json"

/-- An OCI image as consumed by AddImage: the ordered compressed layer
bytes (img.Layers), the raw config bytes (img.RawConfigFile), and the
manifest (img.Manifest). -/
structure Image where
  layers : List ByteSeq
  rawConfig : ByteSeq
  manifest : ManifestObj
deriving DecidableEq, Repr

/-- layer.Digest(): the digest of the layer's compressed bytes. -/
def layerDigest (bs : ByteSeq) : String := blobDigest (.raw bs)

/-- writeLayers: add every layer's compressed bytes to the store and record
digest-to-cid pairs.  The Go version fans out one goroutine per layer and
joins; only the final map content is observable, modelled sequentially. -/
def writeLayers : Store → List ByteSeq → Store × List (String × Cid)
  | s, [] => (s, [])
  | s, bs :: rest =>
    let p := storeAdd s (.raw bs)
    let q := writeLayers p.1 rest
    (q.1, (layerDigest bs, p.2) :: q.2)

/-- Read of the Go map cidMap: later insertions overwrite earlier ones, so
the lookup gives priority to the entry inserted last (the tail of the
association list holds the later insertions). -/
def mapLookup : List (String × Cid) → String → Option Cid
  | [], _ => none
  | (k, v) :: rest, key =>
    match mapLookup rest key with
    | some r => some r
    | none => if k = key then some v else none

/-- Decorate the layer descriptors of a manifest copy with single
ipfs:// locators from the digest table; a digest missing from the table is
a hard error. -/
def decorateLayers (table : List (String × Cid)) : List Descriptor → Except String (List Descriptor)
  | [] => .ok []
  | l :: rest =>
    match mapLookup table l.digest with
    | none => .error ("layer descriptor " ++ l.digest ++ " not found")
    | some c =>
      match decorateLayers table rest with
      | .error e => .error e
      | .ok rest2 => .ok ({ l with urls := [.ipfsLoc c] } :: rest2)

/-- convertIpfs: deep-copy the manifest (values are immutable here, so the
copy is implicit) and populate the urls of the config descriptor and every
layer descriptor from the digest table. -/
def convertIpfs (m : ManifestObj) (table : List (String × Cid)) : Except String ManifestObj :=
  match mapLookup table m.config.digest with
  | none => .error ("config descriptor " ++ m.config.digest ++ " not found")
  | some cc =>
    match decorateLayers table m.layers with
    | .error e => .error e
    | .ok ls => .ok { m with config := { m.config with urls := [.ipfsLoc cc] }, layers := ls }

/-- Everything AddImage computes, kept for the proofs: the digest table,
the decorated manifest, the wrapping index, the outer wrapper, their blobs
and CIDs, the final store and the returned root handle. -/
structure AddResult where
  table : List (String × Cid)
  cfgCid : Cid
  manifestObj : ManifestObj
  manifestBlob : Blob
  manifestCid : Cid
  indexObj : IndexObj
  indexBlob : Blob
  indexCid : Cid
  wrapperObj : WrapperObj
  store : Store
  root : Cid
deriving DecidableEq, Repr

/-- AddImage (add.go): write layers, write the raw config, build the digest
table, decorate the manifest, write it, build and write the single-entry
wrapping index, build and write the outer wrapper, return its CID. -/
def addImageFull (s : Store) (img : Image) : Except String AddResult :=
  let wl := writeLayers s img.layers
  let pc := storeAdd wl.1 (.raw img.rawConfig)
  let table := wl.2 ++ [(img.manifest.config.digest, pc.2)]
  match convertIpfs img.manifest table with
  | .error e => .error e
  | .ok m2 =>
    let mBlob : Blob := .manifestJson m2
    let pm := storeAdd pc.1 mBlob
    let idx : IndexObj :=
      { mediaType := ociImageIndexMT
        manifests := [{ mediaType := m2.mediaType, digest := blobDigest mBlob,
                        size := blobSize mBlob, urls := [.ipfsLoc pm.2] }] }
    let idxBlob : Blob := .indexJson idx
    let pj := storeAdd pm.1 idxBlob
    let w : WrapperObj :=
      { mediaType := ociImageIndexMT, digest := blobDigest idxBlob,
        size := blobSize idxBlob, urls := [.ipfsLoc pj.2] }
    let pw := storeAdd pj.1 (.wrapperJson w)
    .ok { table := table, cfgCid := pc.2, manifestObj := m2, manifestBlob := mBlob,
          manifestCid := pm.2, indexObj := idx, indexBlob := idxBlob, indexCid := pj.2,
          wrapperObj := w, store := pw.1, root := pw.2 }

/-- The public AddImage signature: final store and root handle only. -/
def AddImage (s : Store) (img : Image) : Except String (Store × Cid) :=
  match addImageFull s img with
  | .error e => .error e
  | .ok r => .ok (r.store, r.root)

/-- One entry of the generic catch record's manifests field. -/
structure CatchMan where
  mediaType : String
  digest : String
  urls : List Locator
deriving DecidableEq, Repr

/-- The catch struct of registry.go: a generic decode target accepting both
the direct \x7bdigest, urls\x7d pointer shape and the \x7bmanifests: [...]\x7d shape.
urls is an Option because the Go code distinguishes an absent (nil) field;
the writers of this system marshal urls with omitempty, so an empty list is
never serialized and decodes as absent. -/
structure CatchObj where
  mediaType : String
  digest : String
  urls : Option (List Locator)
  manifests : List CatchMan
deriving DecidableEq, Repr

/-- json.Decode of a stored blob into the catch struct.  Raw bytes are
opaque non-JSON content in this model and fail to decode; record blobs
decode by field projection, absent fields taking zero values. -/
def decodeCatch : Blob → Except String CatchObj
  | .raw _ => .error "json decode failure"
  | .manifestJson m => .ok { mediaType := m.mediaType, digest := "", urls := none, manifests := [] }
  | .indexJson idx =>
      .ok { mediaType := idx.mediaType, digest := "", urls := none,
            manifests := idx.manifests.map
              (fun d => { mediaType := d.mediaType, digest := d.digest, urls := d.urls }) }
  | .wrapperJson w =>
      .ok { mediaType := w.mediaType, digest := w.digest,
            urls := if w.urls = [] then none else some w.urls, manifests := [] }
  | .mapJson _ => .ok { mediaType := "", digest := "", urls := none, manifests := [] }

/-- resolveCids: accepts only a single-element urls slice.  More than one
element is a checked error; the Go code then indexes urls[0] without a
length guard, so an empty slice is an index-out-of-range panic. -/
def resolveCids (urls : List Locator) : GoResult Cid :=
  if urls.length > 1 then
    .err ("expected a single cid, got " ++ toString urls.length)
  else
    match urls with
    | [] => .panicked
    | u :: _ =>
      match u with
      | .ipfsLoc c => .ok c
      | .otherScheme s => .err ("expected ipfs scheme prefix, but got " ++ s)
      | .ipfsBad s => .err ("cid decode failed: " ++ s)

/-- step: decode a blob as a catch record, pick the direct urls shape if
the field is present, else a single-entry manifests shape, else fail with
"nope"; resolve the single locator and parse the digest.  The returned
media type is the decoded record's own top-level mediaType. -/
def step (f : Blob) : GoResult (Cid × String × String) :=
  match decodeCatch f with
  | .error e => .err e
  | .ok robj =>
    let pick : Option (String × List Locator) :=
      match robj.urls with
      | some us => some (robj.digest, us)
      | none =>
        match robj.manifests with
        | [m] => some (m.digest, m.urls)
        | _ => none
    match pick with
    | none => .err "nope"
    | some (ds, us) =>
      match resolveCids us with
      | .panicked => .panicked
      | .err e => .err e
      | .ok c =>
        match digestParse ds with
        | .panicked => .panicked
        | .err e => .err e
        | .ok d => .ok (c, d, robj.mediaType)

/-- json.Decode of a stored blob into v1.Manifest: record blobs decode by
field projection, fields of other shapes are ignored and missing fields
take zero values (an absent config is the zero descriptor). -/
def emptyDescriptor : Descriptor := { mediaType := "", digest := "", size := 0, urls := [] }

def decodeManifest : Blob → Except String ManifestObj
  | .raw _ => .error "json decode failure"
  | .manifestJson m => .ok m
  | .indexJson idx => .ok { mediaType := idx.mediaType, config := emptyDescriptor, layers := [] }
  | .wrapperJson w => .ok { mediaType := w.mediaType, config := emptyDescriptor, layers := [] }
  | .mapJson _ => .ok { mediaType := "", config := emptyDescriptor, layers := [] }

/-- One callback invocation of the walk: (cid, digest, mediaType). -/
abbrev Emission := Cid × String × String

/-- The per-layer tail of the walk: resolve each layer descriptor's single
locator and emit (cid, digest, mediaType) in manifest order. -/
def layerSteps : List Descriptor → GoResult (List Emission)
  | [] => .ok []
  | l :: rest =>
    match resolveCids l.urls with
    | .panicked => .panicked
    | .err e => .err e
    | .ok c =>
      match layerSteps rest with
      | .panicked => .panicked
      | .err e => .err e
      | .ok ems => .ok ((c, l.digest, l.mediaType) :: ems)

/-- walk (registry.go): open the root, step to the index (a checked error
from this first step is discarded by the code - the err variable is
shadowed - leaving the zero values in place), emit the index node, open
and step the index, emit the manifest node, open and decode the manifest,
emit the config descriptor, then emit each layer descriptor in order.
The walk's callback in ReadBlob never errors, so the walk is equivalently
the computation of the full emission list (any failure discards it). -/
def walk (s : Store) (rootc : Cid) : GoResult (List Emission) :=
  match storeGet s rootc with
  | none => .err "open failed"
  | some rootf =>
    match step rootf with
    | .panicked => .panicked
    | first =>
      let em1 : Emission :=
        match first with
        | .ok v => v
        | _ => (0, "", "")
      match storeGet s em1.1 with
      | none => .err "open failed"
      | some idxf =>
        match step idxf with
        | .panicked => .panicked
        | .err e => .err e
        | .ok em2 =>
          match storeGet s em2.1 with
          | none => .err "open failed"
          | some mf =>
            match decodeManifest mf with
            | .error e => .err e
            | .ok m =>
              match resolveCids m.config.urls with
              | .panicked => .panicked
              | .err e => .err e
              | .ok cc =>
                match layerSteps m.layers with
                | .panicked => .panicked
                | .err e => .err e
                | .ok lems =>
                    .ok (em1 :: em2 :: (cc, m.config.digest, m.config.mediaType) :: lems)

/-- The found-state of ReadBlob's walk callback: every matching emission
overwrites the previously recorded one, so the last match wins. -/
def scanFound (d : String) (ems : List Emission) (acc : Option (Cid × String)) :
    Option (Cid × String) :=
  ems.foldl (fun a em => if d = em.2.1 then some (em.1, em.2.2) else a) acc

/-- ReadBlob: decode the root cid, walk the graph recording every emission
whose digest equals the requested one (later matches overwrite earlier
ones), fail with a not-found error when nothing matched, else open the
recorded cid and return its content with the recorded media type. -/
def ReadBlob (s : Store) (name : CidParam) (d : String) : GoResult (Blob × String) :=
  match cidDecode name with
  | .panicked => .panicked
  | .err e => .err e
  | .ok rootc =>
    match walk s rootc with
    | .panicked => .panicked
    | .err e => .err e
    | .ok ems =>
      match scanFound d ems none with
      | none => .err ("didn't find desired digest " ++ d)
      | some fc =>
        match storeGet s fc.1 with
        | none => .err "open failed"
        | some ff => .ok (ff, fc.2)

/-- ReadManifest: for the literal tag "latest", open the outer wrapper,
step once to the wrapping index and return that content with the media
type declared by the wrapper record; any other reference must parse as a
digest and is delegated to ReadBlob. -/
def ReadManifest (s : Store) (name : CidParam) (reference : String) : GoResult (Blob × String) :=
  match cidDecode name with
  | .panicked => .panicked
  | .err e => .err e
  | .ok c =>
    if reference = "latest" then
      match storeGet s c with
      | none => .err "open failed"
      | some rootf =>
        match step rootf with
        | .panicked => .panicked
        | .err e => .err e
        | .ok em =>
          match storeGet s em.1 with
          | none => .err "open failed"
          | some idxf => .ok (idxf, em.2.2)
    else
      match digestParse reference with
      | .panicked => .panicked
      | .err e => .err ("reference must either be latest or a valid digest: " ++ e)
      | .ok d => ReadBlob s name d

/-- An HTTP response as observed by the client: status, the Content-Type
header if one was set, and the body bytes. -/
structure HttpResponse where
  status : Nat
  contentType : Option String
  body : ByteSeq
deriving DecidableEq, Repr

/-- What net/http sends when a handler returns without writing anything:
status 200 and an empty body, no Content-Type header. -/
def emptyOkResponse : HttpResponse := { status := 200, contentType := none, body := "" }

/-- buildGetManifestHandler: on a read error the handler returns without
writing (the client sees 200 with an empty body); on success it sets
Content-Type to the returned media type and serves the content. -/
def getManifestHandler (s : Store) (cp : CidParam) (reference : String) : GoResult HttpResponse :=
  match ReadManifest s cp reference with
  | .panicked => .panicked
  | .err _ => .ok emptyOkResponse
  | .ok (b, mt) => .ok { status := 200, contentType := some mt, body := blobBody b }

/-- buildGetBlobsHandler: parse the reference as a digest (returning
nothing on failure), then read the blob as above. -/
def getBlobsHandler (s : Store) (cp : CidParam) (reference : String) : GoResult HttpResponse :=
  match digestParse reference with
  | .panicked => .panicked
  | .err _ => .ok emptyOkResponse
  | .ok d =>
    match ReadBlob s cp d with
    | .panicked => .panicked
    | .err _ => .ok emptyOkResponse
    | .ok (b, mt) => .ok { status := 200, contentType := some mt, body := blobBody b }

/-- Cluster-level state seen by the naming service: the content store, the
current target of the cluster's single IPNS naming key (none when nothing
was ever published, in which case Name().Resolve fails), the CidMapper
secret field (none when the key is absent), and the swarm peer count. -/
structure ClusterState where
  store : Store
  ipnsRecord : Option Cid
  secretKey : Option String
  peers : Nat
deriving DecidableEq, Repr

/-- Name().Resolve of an IPNS name: the cluster has a single naming key,
whose current target is ipnsRecord. -/
def ipnsResolve (st : ClusterState) (_nm : String) : Option Cid := st.ipnsRecord

/-- Name().Publish: repoints the naming key at the given CID; without
AllowOffline it fails when no peers are connected. -/
def namePublish (st : ClusterState) (c : Cid) (allowOffline : Bool) : Except String ClusterState :=
  if allowOffline = false ∧ st.peers = 0 then .error "cannot publish while offline"
  else .ok { st with ipnsRecord := some c }

/-- Insertion into the serialized name map (Go map insert: overwrite the
existing key, else add the entry). -/
def mapInsert (l : List (String × String)) (k v : String) : List (String × String) :=
  match l with
  | [] => [(k, v)]
  | (k0, v0) :: rest => if k0 = k then (k0, v) :: rest else (k0, v0) :: mapInsert rest k v

/-- Lookup in the serialized name map (keys are unique after mapInsert). -/
def mapGet : List (String × String) → String → Option String
  | [], _ => none
  | (k0, v0) :: rest, k => if k0 = k then some v0 else mapGet rest k

/-- path.Resolved.String(): the /ipfs/<cid> rendering stored as the map
value by updateCidMap. -/
def pathString (c : Cid) : String := "/ipfs/" ++ toString c

/-- updateCidMap (add command): read the IPNS name from the cluster secret,
resolve it to the current name-map blob, decode the map, insert the entry
under the raw reference string, write the new blob and publish it with
AllowOffline.  Every failure along the way - including an IPNS name that
resolves to nothing because no map exists yet - is returned as an error. -/
def updateCidMap (st : ClusterState) (ref : String) (op : Cid) : Except String (ClusterState × Cid) :=
  match st.secretKey with
  | none => .error "couldn't find ipns key in secret"
  | some idxPath =>
    match ipnsResolve st idxPath with
    | none => .error "ipns name resolve failed"
    | some mapCid =>
      match storeGet st.store mapCid with
      | none => .error "open failed"
      | some f =>
        match f with
        | .mapJson cidMap =>
          let cidMap2 := mapInsert cidMap ref (pathString op)
          let pa := storeAdd st.store (.mapJson cidMap2)
          match namePublish { st with store := pa.1 } pa.2 true with
          | .error e => .error e
          | .ok st2 => .ok (st2, pa.2)
        | _ => .error "json decode failure"

def defaultRegistry : String := "index.docker.io"

/-- Heuristic of the name library: the first path component is a registry
when it contains a dot or a colon or is the literal "localhost". -/
def looksLikeRegistry (s : String) : Bool :=
  s.data.any (fun c => c == '.') || s.data.any (fun c => c == ':') || s = "localhost"

/-- Structural splitting of a character list on a separator (the library
uses String.splitOn; this reduces in the kernel). -/
def splitOnChar : List Char → Char → List (List Char)
  | [], _ => [[]]
  | c :: rest, sep =>
    let r := splitOnChar rest sep
    if c = sep then [] :: r
    else
      match r with
      | [] => [[c]]
      | g :: gs => (c :: g) :: gs

/-- String split on a separator character. -/
def splitStr (s : String) (sep : Char) : List String :=
  (splitOnChar s.data sep).map (fun cs => String.mk cs)

/-- Split an optional ":tag" suffix off the final path component. -/
def splitTagComp (s : String) : String × Option String :=
  match splitStr s ':' with
  | [r, t] => (r, some t)
  | _ => (s, none)

/-- Model of the external library call
name.ParseReference(s).Name() (github.com/google/go-containerregistry):
canonicalize a tag-form reference by defaulting the registry to
index.docker.io, prefixing "library/" for single-component repositories on
the default registry, and defaulting the tag to "latest".  Digest-form
references (containing a commercial at) are outside this model. -/
def canonicalName (s : String) : Except String String :=
  if s = "" ∨ s.data.any (fun c => c == '@') then
    .error ("could not parse reference: " ++ s)
  else
    match splitStr s '/' with
    | [] => .error ("could not parse reference: " ++ s)
    | first :: rest =>
      let hasReg := rest ≠ [] ∧ looksLikeRegistry first = true
      let registry := if hasReg then first else defaultRegistry
      let repoParts := if hasReg then rest else first :: rest
      match repoParts.reverse with
      | [] => .error ("could not parse reference: " ++ s)
      | last :: revInit =>
        let rt := splitTagComp last
        let tag := rt.2.getD "latest"
        let repoParts2 := (rt.1 :: revInit).reverse
        let repoParts3 :=
          if registry = defaultRegistry ∧ repoParts2.length = 1
          then "library" :: repoParts2 else repoParts2
        if rt.1 = "" ∨ tag = "" then .error ("could not parse reference: " ++ s)
        else .ok (registry ++ "/" ++ String.intercalate "/" repoParts3 ++ ":" ++ tag)

/-- IpnsCidMapper.fetch: require a connected peer, read the IPNS name from
the secret, resolve it, fetch and decode the name-map blob. -/
def fetchCidMap (st : ClusterState) : Except String (List (String × String)) :=
  if st.peers = 0 then .error "swarm not initialized yet, ipns cannot exist"
  else
    match st.secretKey with
    | none => .error "fetching ipns cid failed"
    | some n =>
      match ipnsResolve st n with
      | none => .error "ipns name resolve failed"
      | some p =>
        match storeGet st.store p with
        | none => .error "open failed"
        | some f =>
          match f with
          | .mapJson m => .ok m
          | _ => .error "json decode failure"

/-- IpnsCidMapper.Resolve: fetch the map (any fetch failure collapses to
one message), canonicalize the reference with the name library, and look
up the canonical name; a missing entry is a not-found error. -/
def Resolve (st : ClusterState) (reference : String) : Except String String :=
  match fetchCidMap st with
  | .error _ => .error "unable to retrieve cid mapper"
  | .ok mapper =>
    match canonicalName reference with
    | .error e => .error e
    | .ok nm =>
      match mapGet mapper nm with
      | none => .error ("cid does not exist for reference " ++ nm)
      | some c => .ok c

/-- A pod container: name and image reference (the only fields the
mutator touches or reads). -/
structure Container where
  name : String
  image : String
deriving DecidableEq, Repr

/-- A pod: metadata name, init containers and containers. -/
structure Pod where
  name : String
  initContainers : List Container
  containers : List Container
deriving DecidableEq, Repr

/-- The admission request after the decoder ran: either a decodable pod or
a decode failure. -/
inductive AdmissionRequest where
  | decodable (pod : Pod)
  | undecodable
deriving DecidableEq, Repr

/-- The admission response: an errored request, a JSON patch computed from
the original against the mutated pod, or plain allowed with no patch. -/
inductive AdmissionResponse where
  | errored (code : Nat)
  | patched (newPod : Pod)
  | allowed (msg : String)
deriving DecidableEq, Repr

/-- The CidMapper capability consumed by the webhook. -/
abbrev Resolver := String → Except String String

/-- prefixIpfsRegistry: path.Join of the registry host with the resolved
cid string (a single joining slash, none duplicated). -/
def joinRegistryPath (registry : String) (c : String) : String :=
  match c.data with
  | '/' :: _ => registry ++ c
  | _ => registry ++ "/" ++ c

/-- One container loop of Handle: on a resolution failure of any kind the
container is left untouched and the loop continues; on success the image
field is rewritten and the change recorded under the original image. -/
def processContainers (resolve : Resolver) (registry : String) :
    List Container → List Container × List (String × String)
  | [] => ([], [])
  | c :: rest =>
    let q := processContainers resolve registry rest
    match resolve c.image with
    | .error _ => (c :: q.1, q.2)
    | .ok cid2 =>
      let resolved := joinRegistryPath registry cid2
      ({ c with image := resolved } :: q.1, (c.image, resolved) :: q.2)

/-- podRelocatorHandler.Handle: decode the pod (a decode failure errors the
request with 400), process init containers and containers, and respond
with a patch when at least one image changed, else allowed.  Re-marshalling
the mutated pod, which Go surfaces as a 500 on failure, cannot fail in
this model. -/
def Handle (resolve : Resolver) (registry : String) (req : AdmissionRequest) : AdmissionResponse :=
  match req with
  | .undecodable => .errored 400
  | .decodable pod =>
    let fi := processContainers resolve registry pod.initContainers
    let fc := processContainers resolve registry pod.containers
    let changed := fi.2 ++ fc.2
    let pod2 : Pod := { pod with initContainers := fi.1, containers := fc.1 }
    if changed.length > 0 then .patched pod2 else .allowed "no image resolutions found"

/-- Store extension: t holds everything s holds, at the same positions. -/
def StoreExt (s t : Store) : Prop := ∃ u, t = s ++ u

/-- The cid of a descriptor decorated with a single ipfs locator. -/
def singletonCid (d : Descriptor) : Cid :=
  match d.urls with
  | [Locator.ipfsLoc c] => c
  | _ => 0

/-- Placeholder AddResult (never reached on the inputs below). -/
def dummyAddResult : AddResult :=
  { table := [], cfgCid := 0
    manifestObj := { mediaType := "", config := emptyDescriptor, layers := [] }
    manifestBlob := .raw "", manifestCid := 0
    indexObj := { mediaType := "", manifests := [] }, indexBlob := .raw "", indexCid := 0
    wrapperObj := { mediaType := "", digest := "", size := 0, urls := [] }
    store := [], root := 0 }

/-- A concrete well-formed one-layer image used by the witnesses. -/
def imgA : Image :=
  { layers := ["LAYER-A"]
    rawConfig := "CONFIG-A"
    manifest :=
      { mediaType := "application/vnd.oci.image.manifest.v1+json"
        config := { mediaType := ociImageConfigMT, digest := blobDigest (.raw "CONFIG-A"),
                    size := 8, urls := [] }
        layers := [{ mediaType := "application/vnd.oci.image.layer.v1.tar+gzip",
                     digest := layerDigest "LAYER-A", size := 7, urls := [] }] } }

/-- The result of ingesting imgA into the empty store. -/
def rA : AddResult :=
  match addImageFull [] imgA with
  | .ok r => r
  | .error _ => dummyAddResult

/-- A hand-crafted graph in which the wrapper record and the manifest's
config descriptor declare the same digest: the walk visits it twice. -/
def dupDigest : String := "sha256:duplicated"

def c3Manifest : ManifestObj :=
  { mediaType := "manifest-mt"
    config := { mediaType := "config-mt", digest := dupDigest, size := 1, urls := [.ipfsLoc 4] }
    layers := [] }

def c3Index : IndexObj :=
  { mediaType := "index-mt"
    manifests := [{ mediaType := "m-mt", digest := "sha256:manifest", size := 1,
                    urls := [.ipfsLoc 3] }] }

def c3Wrapper : WrapperObj :=
  { mediaType := "wrapper-mt", digest := dupDigest, size := 1, urls := [.ipfsLoc 2] }

def c3Store : Store :=
  [.wrapperJson c3Wrapper, .indexJson c3Index, .manifestJson c3Manifest, .raw "THE-CONFIG"]

/-- A peered cluster whose naming key points at an existing empty map. -/
def c5State : ClusterState :=
  { store := [.mapJson []], ipnsRecord := some 1, secretKey := some "k51name", peers := 2 }

/-- A peered cluster with the secret in place but no name map published
yet: the naming key resolves to nothing. -/
def c6State : ClusterState :=
  { store := [], ipnsRecord := none, secretKey := some "k51name", peers := 2 }

/-- A zero-peer cluster whose naming key resolves to an empty map:
exercises publication with AllowOffline. -/
def offState : ClusterState :=
  { store := [.mapJson []], ipnsRecord := some 1, secretKey := some "k51name", peers := 0 }

/-- A concrete resolver for the webhook witnesses: exactly one image
reference resolves. -/
def resolverA : Resolver := fun s =>
  if s = "docker.io/library/app:v1" then .ok "/ipfs/42" else .error "cid does not exist"

/-- A pod with one resolving container, one non-resolving container and
one non-resolving init container. -/
def podA : Pod :=
  { name := "p1"
    initContainers := [{ name := "init1", image := "busybox" }]
    containers := [{ name := "main", image := "docker.io/library/app:v1" },
                   { name := "side", image := "redis" }] }

/-- podA after the mutator rewrote the single resolving image. -/
def podAPatched : Pod :=
  { name := "p1"
    initContainers := [{ name := "init1", image := "busybox" }]
    containers := [{ name := "main", image := "reg.local:5000/ipfs/42" },
                   { name := "side", image := "redis" }] }

/-- A pod none of whose images resolve. -/
def podNone : Pod :=
  { name := "p2", initContainers := [], containers := [{ name := "main", image := "redis" }] }

/-! Store lemmas: content addressing, extension monotonicity, stability of
re-adding present content. -/

theorem findIdx_get {l : List Blob} {b : Blob} :
    ∀ {i : Nat}, findIdx l b = some i → l.get? i = some b := by
  induction l with
  | nil => intro i h; simp [findIdx] at h
  | cons x xs ih =>
    intro i h
    by_cases hx : x = b
    · subst hx
      simp [findIdx] at h
      subst h
      rfl
    · simp [findIdx, hx] at h
      obtain ⟨j, hj, rfl⟩ := h
      simpa using ih hj

theorem findIdx_append_left {l : List Blob} {b : Blob} {i : Nat} (u : List Blob)
    (h : findIdx l b = some i) : findIdx (l ++ u) b = some i := by
  induction l generalizing i with
  | nil => simp [findIdx] at h
  | cons x xs ih =>
    by_cases hx : x = b
    · subst hx; simp [findIdx] at h ⊢; exact h
    · simp [findIdx, hx] at h ⊢
      obtain ⟨j, hj, rfl⟩ := h
      exact ⟨j, ih hj, rfl⟩

theorem findIdx_ext {s t : Store} {b : Blob} {i : Nat} (h : StoreExt s t)
    (hf : findIdx s b = some i) : findIdx t b = some i := by
  obtain ⟨u, rfl⟩ := h
  exact findIdx_append_left u hf

theorem findIdx_append_self {l : List Blob} {b : Blob} (h : findIdx l b = none) :
    findIdx (l ++ [b]) b = some l.length := by
  induction l with
  | nil => simp [findIdx]
  | cons x xs ih =>
    by_cases hx : x = b
    · subst hx; simp [findIdx] at h
    · simp [findIdx, hx] at h ⊢
      exact ih h

theorem storeExt_refl (s : Store) : StoreExt s s := ⟨[], by simp⟩

theorem storeExt_trans {s t u : Store} (h1 : StoreExt s t) (h2 : StoreExt t u) :
    StoreExt s u := by
  obtain ⟨a, rfl⟩ := h1
  obtain ⟨b, rfl⟩ := h2
  exact ⟨a ++ b, by simp⟩

theorem storeAdd_ext (s : Store) (b : Blob) : StoreExt s (storeAdd s b).1 := by
  unfold storeAdd
  cases h : findIdx s b with
  | none => exact ⟨[b], rfl⟩
  | some i => exact ⟨[], by simp⟩

theorem storeGet_mono {s t : Store} {c : Cid} {x : Blob} (h : StoreExt s t)
    (hg : storeGet s c = some x) : storeGet t c = some x := by
  obtain ⟨u, rfl⟩ := h
  unfold storeGet at hg ⊢
  split at hg
  · simp at hg
  next hc =>
    rw [if_neg hc]
    obtain ⟨hlt, _⟩ := List.get?_eq_some.mp hg
    rw [List.get?_append hlt]
    exact hg

theorem storeAdd_spec (s : Store) (b : Blob) :
    storeGet (storeAdd s b).1 (storeAdd s b).2 = some b ∧
    findIdx (storeAdd s b).1 b = some ((storeAdd s b).2 - 1) ∧
    0 < (storeAdd s b).2 := by
  unfold storeAdd
  cases h : findIdx s b with
  | some i =>
    refine ⟨?_, by simpa using h, by simp⟩
    simp only [storeGet, Nat.add_sub_cancel]
    rw [if_neg (Nat.succ_ne_zero i)]
    simpa using findIdx_get h
  | none =>
    refine ⟨?_, by simpa using findIdx_append_self h, by simp⟩
    simp only [storeGet, Nat.add_sub_cancel]
    rw [if_neg (Nat.succ_ne_zero _)]
    simp [List.get?_concat_length]

theorem storeAdd_stable {s : Store} {b : Blob} {i : Nat} (h : findIdx s b = some i) :
    storeAdd s b = (s, i + 1) := by
  unfold storeAdd
  rw [h]

theorem storeAdd_stable_ext {s t u : Store} {b : Blob} {c : Cid}
    (h1 : storeAdd s b = (t, c)) (h2 : StoreExt t u) : storeAdd u b = (u, c) := by
  obtain ⟨hget, hfind, hpos⟩ := storeAdd_spec s b
  rw [h1] at hget hfind hpos
  have hu : findIdx u b = some (c - 1) := findIdx_ext h2 hfind
  have := storeAdd_stable hu
  rwa [Nat.sub_add_cancel hpos] at this

/-! writeLayers lemmas. -/

theorem writeLayers_ext (s : Store) (ls : List ByteSeq) : StoreExt s (writeLayers s ls).1 := by
  induction ls generalizing s with
  | nil => exact storeExt_refl s
  | cons bs rest ih =>
    exact storeExt_trans (storeAdd_ext s (.raw bs)) (ih (storeAdd s (.raw bs)).1)

theorem writeLayers_keys (s : Store) (ls : List ByteSeq) :
    (writeLayers s ls).2.map Prod.fst = ls.map layerDigest := by
  induction ls generalizing s with
  | nil => rfl
  | cons bs rest ih => simp [writeLayers, ih]

theorem writeLayers_table (s : Store) (ls : List ByteSeq) :
    ∀ i bs, ls.get? i = some bs →
      ∃ c, (writeLayers s ls).2.get? i = some (layerDigest bs, c) ∧
           storeGet (writeLayers s ls).1 c = some (.raw bs) := by
  induction ls generalizing s with
  | nil => intro i bs h; simp at h
  | cons b0 rest ih =>
    intro i bs h
    cases i with
    | zero =>
      rw [List.get?_cons_zero] at h
      injection h with h
      subst h
      refine ⟨(storeAdd s (.raw b0)).2, ?_, ?_⟩
      · simp [writeLayers]
      · exact storeGet_mono (writeLayers_ext _ rest) (storeAdd_spec s (.raw b0)).1
    | succ j =>
      rw [List.get?_cons_succ] at h
      obtain ⟨c, hc1, hc2⟩ := ih (storeAdd s (.raw b0)).1 j bs h
      refine ⟨c, ?_, hc2⟩
      simpa [writeLayers] using hc1

theorem writeLayers_stable {s t u : Store} {ls : List ByteSeq} {tbl : List (String × Cid)}
    (h : writeLayers s ls = (t, tbl)) (hext : StoreExt t u) : writeLayers u ls = (u, tbl) := by
  induction ls generalizing s t u tbl with
  | nil =>
    simp [writeLayers] at h
    simp [writeLayers, h]
  | cons bs rest ih =>
    simp only [writeLayers] at h
    have hp : storeAdd s (.raw bs) = ((storeAdd s (.raw bs)).1, (storeAdd s (.raw bs)).2) := rfl
    have hq : writeLayers (storeAdd s (.raw bs)).1 rest
        = ((writeLayers (storeAdd s (.raw bs)).1 rest).1,
           (writeLayers (storeAdd s (.raw bs)).1 rest).2) := rfl
    have ht : (writeLayers (storeAdd s (.raw bs)).1 rest).1 = t := congrArg Prod.fst h
    have htbl : (layerDigest bs, (storeAdd s (.raw bs)).2)
        :: (writeLayers (storeAdd s (.raw bs)).1 rest).2 = tbl := congrArg Prod.snd h
    have hext2 : StoreExt (writeLayers (storeAdd s (.raw bs)).1 rest).1 u := ht ▸ hext
    have hextp : StoreExt (storeAdd s (.raw bs)).1 u :=
      storeExt_trans (writeLayers_ext _ rest) hext2
    have hadd : storeAdd u (.raw bs) = (u, (storeAdd s (.raw bs)).2) :=
      storeAdd_stable_ext hp hextp
    have hrest : writeLayers u rest = (u, (writeLayers (storeAdd s (.raw bs)).1 rest).2) :=
      ih hq hext2
    simp [writeLayers, hadd, hrest, ← htbl]

/-! Digest-table and digest-format lemmas. -/

theorem digestOk_blobDigest (b : Blob) : digestOk (blobDigest b) = true := by
  simp [digestOk, blobDigest, String.data_append]

theorem digestParse_blobDigest (b : Blob) : digestParse (blobDigest b) = .ok (blobDigest b) := by
  simp [digestParse, digestOk_blobDigest]

theorem mapLookup_append_last (l : List (String × Cid)) (k : String) (v : Cid) :
    mapLookup (l ++ [(k, v)]) k = some v := by
  induction l with
  | nil => simp [mapLookup]
  | cons p rest ih => simp [mapLookup, ih]

theorem mapLookup_not_mem {l : List (String × Cid)} {k : String}
    (h : k ∉ l.map Prod.fst) : mapLookup l k = none := by
  induction l with
  | nil => rfl
  | cons p rest ih =>
    rw [List.map_cons, List.mem_cons] at h
    push_neg at h
    simp only [mapLookup, ih h.2]
    rw [if_neg (fun hc => h.1 hc.symm)]

theorem mapLookup_nodup {tbl : List (String × Cid)} (h : (tbl.map Prod.fst).Nodup)
    {i : Nat} {k : String} {v : Cid} (hg : tbl.get? i = some (k, v)) :
    mapLookup tbl k = some v := by
  induction tbl generalizing i with
  | nil => simp at hg
  | cons p rest ih =>
    rw [List.map_cons, List.nodup_cons] at h
    cases i with
    | zero =>
      rw [List.get?_cons_zero] at hg
      injection hg with hg
      subst hg
      have hnot : mapLookup rest k = none := mapLookup_not_mem h.1
      simp [mapLookup, hnot]
    | succ j =>
      rw [List.get?_cons_succ] at hg
      have := ih h.2 hg
      simp [mapLookup, this]

/-! convertIpfs specification. -/

theorem decorateLayers_ok {table : List (String × Cid)} {ls ls2 : List Descriptor}
    (h : decorateLayers table ls = .ok ls2) :
    ls2.length = ls.length ∧
    ∀ i l, ls.get? i = some l → ∃ c, mapLookup table l.digest = some c ∧
      ls2.get? i = some { l with urls := [.ipfsLoc c] } := by
  induction ls generalizing ls2 with
  | nil =>
    simp [decorateLayers] at h
    subst h
    exact ⟨rfl, by intro i l hl; simp at hl⟩
  | cons l0 rest ih =>
    simp only [decorateLayers] at h
    cases hml : mapLookup table l0.digest with
    | none => rw [hml] at h; simp at h
    | some c0 =>
      rw [hml] at h
      cases hdl : decorateLayers table rest with
      | error e => rw [hdl] at h; simp at h
      | ok rest2 =>
        rw [hdl] at h
        simp at h
        subst h
        obtain ⟨hlen, hspec⟩ := ih hdl
        refine ⟨by simp [hlen], ?_⟩
        intro i l hl
        cases i with
        | zero =>
          rw [List.get?_cons_zero] at hl
          injection hl with hl
          subst hl
          exact ⟨c0, hml, by simp⟩
        | succ j =>
          rw [List.get?_cons_succ] at hl
          obtain ⟨c, hc1, hc2⟩ := hspec j l hl
          exact ⟨c, hc1, by simpa using hc2⟩

theorem convertIpfs_ok {m : ManifestObj} {table : List (String × Cid)} {m2 : ManifestObj}
    (h : convertIpfs m table = .ok m2) :
    m2.mediaType = m.mediaType ∧
    (∃ cc, mapLookup table m.config.digest = some cc ∧
       m2.config = { m.config with urls := [.ipfsLoc cc] }) ∧
    m2.layers.length = m.layers.length ∧
    ∀ i l, m.layers.get? i = some l → ∃ c, mapLookup table l.digest = some c ∧
      m2.layers.get? i = some { l with urls := [.ipfsLoc c] } := by
  unfold convertIpfs at h
  cases hml : mapLookup table m.config.digest with
  | none => rw [hml] at h; simp at h
  | some cc =>
    rw [hml] at h
    cases hdl : decorateLayers table m.layers with
    | error e => rw [hdl] at h; simp at h
    | ok ls =>
      rw [hdl] at h
      simp at h
      subst h
      obtain ⟨hlen, hspec⟩ := decorateLayers_ok hdl
      exact ⟨rfl, ⟨cc, rfl, rfl⟩, hlen, hspec⟩

/-! What AddImage guarantees about its result: the construction of each
record and the retrievability of every written blob from the final store. -/

theorem addImageFull_ok {s : Store} {img : Image} {r : AddResult}
    (h : addImageFull s img = .ok r) :
    convertIpfs img.manifest r.table = .ok r.manifestObj ∧
    r.table = (writeLayers s img.layers).2 ++ [(img.manifest.config.digest, r.cfgCid)] ∧
    r.manifestBlob = .manifestJson r.manifestObj ∧
    r.indexObj = { mediaType := ociImageIndexMT,
                   manifests := [{ mediaType := r.manifestObj.mediaType,
                                   digest := blobDigest r.manifestBlob,
                                   size := blobSize r.manifestBlob,
                                   urls := [.ipfsLoc r.manifestCid] }] } ∧
    r.indexBlob = .indexJson r.indexObj ∧
    r.wrapperObj = { mediaType := ociImageIndexMT, digest := blobDigest r.indexBlob,
                     size := blobSize r.indexBlob, urls := [.ipfsLoc r.indexCid] } ∧
    storeGet r.store r.root = some (.wrapperJson r.wrapperObj) ∧
    storeGet r.store r.indexCid = some r.indexBlob ∧
    storeGet r.store r.manifestCid = some r.manifestBlob ∧
    storeGet r.store r.cfgCid = some (.raw img.rawConfig) ∧
    (∀ i bs, img.layers.get? i = some bs →
       ∃ c, r.table.get? i = some (layerDigest bs, c) ∧
            storeGet r.store c = some (.raw bs)) := by
  simp only [addImageFull] at h
  set wl := writeLayers s img.layers with hwl
  set pc := storeAdd wl.1 (.raw img.rawConfig) with hpc
  cases hcv : convertIpfs img.manifest (wl.2 ++ [(img.manifest.config.digest, pc.2)]) with
  | error e => rw [hcv] at h; simp at h
  | ok m2 =>
    rw [hcv] at h
    simp only [Except.ok.injEq] at h
    subst h
    refine ⟨hcv, rfl, rfl, rfl, rfl, rfl, ?_, ?_, ?_, ?_, ?_⟩
    · exact (storeAdd_spec _ _).1
    · exact storeGet_mono (storeAdd_ext _ _) (storeAdd_spec _ _).1
    · exact storeGet_mono (storeAdd_ext _ _)
        (storeGet_mono (storeAdd_ext _ _) (storeAdd_spec _ _).1)
    · exact storeGet_mono (storeAdd_ext _ _)
        (storeGet_mono (storeAdd_ext _ _)
          (storeGet_mono (storeAdd_ext _ _) (storeAdd_spec _ _).1))
    · intro i bs hl
      obtain ⟨c, hc1, hc2⟩ := writeLayers_table s img.layers i bs hl
      refine ⟨c, ?_, ?_⟩
      · obtain ⟨hlt, _⟩ := List.get?_eq_some.mp hc1
        rw [List.get?_append hlt]
        exact hc1
      · exact storeGet_mono (storeAdd_ext _ _)
          (storeGet_mono (storeAdd_ext _ _)
            (storeGet_mono (storeAdd_ext _ _)
              (storeGet_mono (storeAdd_ext _ _) hc2)))

/-! Single steps of the walk over blobs written by AddImage. -/

theorem step_wrapper (w : WrapperObj) (c : Cid) (hu : w.urls = [.ipfsLoc c])
    (hd : digestOk w.digest = true) :
    step (.wrapperJson w) = .ok (c, w.digest, w.mediaType) := by
  simp [step, decodeCatch, hu, resolveCids, digestParse, hd]

theorem step_index (idx : IndexObj) (d : Descriptor) (c : Cid)
    (hm : idx.manifests = [d]) (hu : d.urls = [.ipfsLoc c]) (hd : digestOk d.digest = true) :
    step (.indexJson idx) = .ok (c, d.digest, idx.mediaType) := by
  simp [step, decodeCatch, hm, hu, resolveCids, digestParse, hd]

theorem layerSteps_ok {ls : List Descriptor}
    (h : ∀ l ∈ ls, ∃ c, l.urls = [Locator.ipfsLoc c]) :
    layerSteps ls = .ok (ls.map (fun l => (singletonCid l, l.digest, l.mediaType))) := by
  induction ls with
  | nil => rfl
  | cons l rest ih =>
    obtain ⟨c, hc⟩ := h l (by simp)
    have hrest := ih (fun x hx => h x (by simp [hx]))
    simp [layerSteps, hc, resolveCids, hrest, singletonCid]

theorem decorated_urls {m : ManifestObj} {table : List (String × Cid)} {m2 : ManifestObj}
    (h : convertIpfs m table = .ok m2) :
    ∀ l ∈ m2.layers, ∃ c, l.urls = [Locator.ipfsLoc c] := by
  obtain ⟨_, _, hlen, hspec⟩ := convertIpfs_ok h
  intro l hl
  obtain ⟨i, hi⟩ := List.get?_of_mem hl
  have hilt : i < m2.layers.length := (List.get?_eq_some.mp hi).1
  have hilt0 : i < m.layers.length := hlen ▸ hilt
  cases hgl : m.layers.get? i with
  | none =>
    rw [List.get?_eq_none] at hgl
    omega
  | some l0 =>
    obtain ⟨c, _, hc2⟩ := hspec i l0 hgl
    rw [hi] at hc2
    injection hc2 with hc2
    exact ⟨c, by rw [hc2]⟩

/-- The full emission sequence of the walk over a freshly ingested image:
the index node (with the wrapper's recorded digest), the manifest node
(carrying the index's own media type), the config descriptor, then the
layer descriptors in manifest order. -/
theorem walk_addImageFull {s : Store} {img : Image} {r : AddResult}
    (h : addImageFull s img = .ok r) :
    walk r.store r.root = .ok
      ((r.indexCid, blobDigest r.indexBlob, ociImageIndexMT) ::
       (r.manifestCid, blobDigest r.manifestBlob, ociImageIndexMT) ::
       (r.cfgCid, img.manifest.config.digest, img.manifest.config.mediaType) ::
       r.manifestObj.layers.map (fun l => (singletonCid l, l.digest, l.mediaType))) := by
  obtain ⟨hcv, htable, hmB, hidxO, hiB, hwO, hgetRoot, hgetIdx, hgetM, hgetCfg, hlay⟩ :=
    addImageFull_ok h
  obtain ⟨hmt, ⟨cc, hccL, hcfgD⟩, hlen, hspec⟩ := convertIpfs_ok hcv
  have hccR : cc = r.cfgCid := by
    rw [htable, mapLookup_append_last] at hccL
    exact (Option.some.inj hccL).symm
  subst hccR
  have hstep1 : step (.wrapperJson r.wrapperObj)
      = .ok (r.indexCid, blobDigest r.indexBlob, ociImageIndexMT) := by
    have := step_wrapper r.wrapperObj r.indexCid
      (by rw [hwO]) (by rw [hwO]; exact digestOk_blobDigest _)
    rw [this, hwO]
  have hstep2 : step r.indexBlob
      = .ok (r.manifestCid, blobDigest r.manifestBlob, ociImageIndexMT) := by
    rw [hiB]
    have := step_index r.indexObj
      { mediaType := r.manifestObj.mediaType, digest := blobDigest r.manifestBlob,
        size := blobSize r.manifestBlob, urls := [.ipfsLoc r.manifestCid] }
      r.manifestCid (by rw [hidxO]) rfl (digestOk_blobDigest _)
    rw [this, hidxO]
  have hdec : decodeManifest r.manifestBlob = .ok r.manifestObj := by
    rw [hmB]; rfl
  have hcfgU : resolveCids r.manifestObj.config.urls = .ok r.cfgCid := by
    rw [hcfgD]
    simp [resolveCids]
  have hlsteps := layerSteps_ok (decorated_urls hcv)
  have hcfgdig : r.manifestObj.config.digest = img.manifest.config.digest := by rw [hcfgD]
  have hcfgmt : r.manifestObj.config.mediaType = img.manifest.config.mediaType := by rw [hcfgD]
  simp only [walk, hgetRoot, hstep1, hgetIdx, hstep2, hgetM, hdec, hcfgU, hlsteps,
    hcfgdig, hcfgmt]

/-! The found-state of ReadBlob's callback. -/

theorem scanFound_cons (d : String) (em : Emission) (rest : List Emission)
    (a : Option (Cid × String)) :
    scanFound d (em :: rest) a
      = scanFound d rest (if d = em.2.1 then some (em.1, em.2.2) else a) := by
  simp [scanFound]

theorem scanFound_nomatch {d : String} {ems : List Emission}
    (h : ∀ em ∈ ems, em.2.1 ≠ d) (a : Option (Cid × String)) :
    scanFound d ems a = a := by
  induction ems generalizing a with
  | nil => rfl
  | cons em rest ih =>
    rw [scanFound_cons, if_neg (fun hc => h em (by simp) hc.symm)]
    exact ih (fun x hx => h x (by simp [hx])) a

theorem scanFound_unique {d : String} {ems : List Emission} {i : Nat} {em : Emission}
    (hi : ems.get? i = some em) (hd : em.2.1 = d)
    (hothers : ∀ j em2, j ≠ i → ems.get? j = some em2 → em2.2.1 ≠ d)
    (a : Option (Cid × String)) :
    scanFound d ems a = some (em.1, em.2.2) := by
  induction ems generalizing i a with
  | nil => simp at hi
  | cons e rest ih =>
    cases i with
    | zero =>
      rw [List.get?_cons_zero] at hi
      injection hi with hi
      subst hi
      rw [scanFound_cons, if_pos hd.symm]
      apply scanFound_nomatch
      intro em2 hm2
      obtain ⟨j, hj⟩ := List.get?_of_mem hm2
      exact hothers (j + 1) em2 (by omega) (by rw [List.get?_cons_succ]; exact hj)
    | succ j =>
      rw [List.get?_cons_succ] at hi
      rw [scanFound_cons]
      refine ih hi ?_ _
      intro k em2 hk hke
      exact hothers (k + 1) em2 (by omega) (by rw [List.get?_cons_succ]; exact hke)

theorem nodup_get?_ne {L : List String} (h : L.Nodup) {i j : Nat} (hij : i ≠ j)
    {x y : String} (hx : L.get? i = some x) (hy : L.get? j = some y) : y ≠ x := by
  intro hc
  subst hc
  obtain ⟨hi1, hi2⟩ := List.get?_eq_some.mp hx
  obtain ⟨hj1, hj2⟩ := List.get?_eq_some.mp hy
  have hinj := List.nodup_iff_injective_get.mp h
    (show L.get ⟨i, hi1⟩ = L.get ⟨j, hj1⟩ from hi2.trans hj2.symm)
  exact hij (congrArg Fin.val hinj)

theorem decorated_digests {m : ManifestObj} {table : List (String × Cid)} {m2 : ManifestObj}
    (h : convertIpfs m table = .ok m2) :
    m2.layers.map Descriptor.digest = m.layers.map Descriptor.digest := by
  obtain ⟨_, _, hlen, hspec⟩ := convertIpfs_ok h
  apply List.ext_get?
  intro n
  rw [List.get?_map, List.get?_map]
  cases hgl : m.layers.get? n with
  | none =>
    rw [List.get?_eq_none] at hgl
    rw [List.get?_eq_none.mpr (by omega : m2.layers.length ≤ n)]
  | some l0 =>
    obtain ⟨c, _, hc2⟩ := hspec n l0 hgl
    rw [hc2]
    rfl

theorem table_keys {s : Store} {img : Image} {r : AddResult}
    (h : addImageFull s img = .ok r)
    (hwf : img.manifest.layers.map Descriptor.digest = img.layers.map layerDigest) :
    r.table.map Prod.fst
      = img.manifest.layers.map Descriptor.digest ++ [img.manifest.config.digest] := by
  obtain ⟨_, htable, _⟩ := addImageFull_ok h
  rw [htable]
  simp [writeLayers_keys, hwf]

theorem ReadBlob_walk {s : Store} {root : Cid} {ems : List Emission} {d : String}
    (hw : walk s root = .ok ems) :
    ReadBlob s (.valid root) d =
      (match scanFound d ems none with
       | none => .err ("didn't find desired digest " ++ d)
       | some fc =>
         match storeGet s fc.1 with
         | none => .err "open failed"
         | some ff => .ok (ff, fc.2)) := by
  simp [ReadBlob, cidDecode, hw]

/-- Claim C1: for every OCI image (well-formed: the manifest's layer
digests are the digests of the layer bytes, pairwise distinct, and the
config digest is not a layer digest), after AddImage ingests it into the
store, Graph-Walker resolution of the config digest against the returned
root handle returns content byte-identical to the original raw config blob
with the OCI config media type, and resolution of any layer digest returns
that layer's compressed bytes with its original media type. -/
theorem claim1_resolve_config_and_layers
    (s0 : Store) (img : Image) (r : AddResult)
    (hadd : addImageFull s0 img = .ok r)
    (hwf : img.manifest.layers.map Descriptor.digest = img.layers.map layerDigest)
    (hnodup : (img.manifest.layers.map Descriptor.digest).Nodup)
    (hcfg : img.manifest.config.digest ∉ img.manifest.layers.map Descriptor.digest)
    (hmt : img.manifest.config.mediaType = ociImageConfigMT) :
    ReadBlob r.store (.valid r.root) img.manifest.config.digest
      = .ok (.raw img.rawConfig, ociImageConfigMT) ∧
    ∀ i ld bs, img.manifest.layers.get? i = some ld → img.layers.get? i = some bs →
      ReadBlob r.store (.valid r.root) ld.digest = .ok (.raw bs, ld.mediaType) := by
  obtain ⟨hcv, htable, hmB, hidxO, hiB, hwO, hgetRoot, hgetIdx, hgetM, hgetCfg, hlay⟩ :=
    addImageFull_ok hadd
  have hems := walk_addImageFull hadd
  have hdd := decorated_digests hcv
  have hkeys := table_keys hadd hwf
  have hknodup : (r.table.map Prod.fst).Nodup := by
    rw [hkeys]
    refine List.Nodup.append hnodup (List.nodup_singleton _) ?_
    intro a ha hb
    rw [List.mem_singleton] at hb
    subst hb
    exact hcfg ha
  constructor
  · have hnm : ∀ em ∈ r.manifestObj.layers.map
        (fun l => (singletonCid l, l.digest, l.mediaType)),
        em.2.1 ≠ img.manifest.config.digest := by
      intro em hem
      obtain ⟨l, hl, rfl⟩ := List.mem_map.mp hem
      intro hc
      apply hcfg
      rw [← hdd]
      exact hc ▸ List.mem_map_of_mem Descriptor.digest hl
    have hscan : scanFound img.manifest.config.digest
        ((r.indexCid, blobDigest r.indexBlob, ociImageIndexMT) ::
         (r.manifestCid, blobDigest r.manifestBlob, ociImageIndexMT) ::
         (r.cfgCid, img.manifest.config.digest, img.manifest.config.mediaType) ::
         r.manifestObj.layers.map (fun l => (singletonCid l, l.digest, l.mediaType))) none
        = some (r.cfgCid, img.manifest.config.mediaType) := by
      rw [scanFound_cons, scanFound_cons, scanFound_cons]
      rw [if_pos rfl]
      exact scanFound_nomatch hnm _
    rw [ReadBlob_walk hems, hscan]
    simp only [hgetCfg, hmt]
  · intro i ld bs hld hbs
    obtain ⟨hmt2, ⟨cc, hccL, hcfgD⟩, hlen, hspec⟩ := convertIpfs_ok hcv
    obtain ⟨c2, htg, hsg⟩ := hlay i bs hbs
    have hldg : ld.digest = layerDigest bs := by
      have h1 : (img.manifest.layers.map Descriptor.digest).get? i = some ld.digest := by
        rw [List.get?_map, hld]; rfl
      rw [hwf, List.get?_map, hbs] at h1
      simp only [Option.map_some'] at h1
      exact (Option.some.inj h1).symm
    have hml : mapLookup r.table ld.digest = some c2 := by
      apply mapLookup_nodup hknodup
      rw [hldg]
      exact htg
    obtain ⟨c3, hc3L, hc3g⟩ := hspec i ld hld
    have hc23 : c3 = c2 := Option.some.inj (hc3L.symm.trans hml)
    have hlemi : (r.manifestObj.layers.map
        (fun l => (singletonCid l, l.digest, l.mediaType))).get? i
        = some (c2, ld.digest, ld.mediaType) := by
      rw [List.get?_map, hc3g]
      simp [singletonCid, hc23]
    have hothers : ∀ j em2, j ≠ i →
        (r.manifestObj.layers.map
          (fun l => (singletonCid l, l.digest, l.mediaType))).get? j = some em2 →
        em2.2.1 ≠ ld.digest := by
      intro j em2 hij hj
      rw [List.get?_map] at hj
      cases hgj : r.manifestObj.layers.get? j with
      | none => rw [hgj] at hj; simp at hj
      | some l2 =>
        rw [hgj] at hj
        injection hj with hj
        subst hj
        have hdj : (img.manifest.layers.map Descriptor.digest).get? j = some l2.digest := by
          rw [← hdd, List.get?_map, hgj]; rfl
        have hdi : (img.manifest.layers.map Descriptor.digest).get? i = some ld.digest := by
          rw [List.get?_map, hld]; rfl
        exact nodup_get?_ne hnodup (fun hc => hij hc.symm) hdi hdj
    have hscan : scanFound ld.digest
        ((r.indexCid, blobDigest r.indexBlob, ociImageIndexMT) ::
         (r.manifestCid, blobDigest r.manifestBlob, ociImageIndexMT) ::
         (r.cfgCid, img.manifest.config.digest, img.manifest.config.mediaType) ::
         r.manifestObj.layers.map (fun l => (singletonCid l, l.digest, l.mediaType))) none
        = some (c2, ld.mediaType) := by
      rw [scanFound_cons, scanFound_cons, scanFound_cons]
      exact scanFound_unique hlemi rfl hothers _
    rw [ReadBlob_walk hems, hscan]
    simp only [hsg]

/-! First-occurrence facts about the blobs AddImage wrote, used to show a
re-ingestion finds everything already present. -/

theorem addImageFull_finds {s : Store} {img : Image} {r : AddResult}
    (h : addImageFull s img = .ok r) :
    StoreExt (writeLayers s img.layers).1 r.store ∧
    (findIdx r.store (.raw img.rawConfig) = some (r.cfgCid - 1) ∧ 0 < r.cfgCid) ∧
    (findIdx r.store r.manifestBlob = some (r.manifestCid - 1) ∧ 0 < r.manifestCid) ∧
    (findIdx r.store r.indexBlob = some (r.indexCid - 1) ∧ 0 < r.indexCid) ∧
    (findIdx r.store (.wrapperJson r.wrapperObj) = some (r.root - 1) ∧ 0 < r.root) := by
  simp only [addImageFull] at h
  set wl := writeLayers s img.layers with hwl
  set pc := storeAdd wl.1 (.raw img.rawConfig) with hpc
  cases hcv : convertIpfs img.manifest (wl.2 ++ [(img.manifest.config.digest, pc.2)]) with
  | error e => rw [hcv] at h; simp at h
  | ok m2 =>
    rw [hcv] at h
    simp only [Except.ok.injEq] at h
    subst h
    refine ⟨?_, ⟨?_, (storeAdd_spec _ _).2.2⟩, ⟨?_, (storeAdd_spec _ _).2.2⟩,
      ⟨?_, (storeAdd_spec _ _).2.2⟩, ⟨?_, (storeAdd_spec _ _).2.2⟩⟩
    · exact storeExt_trans (storeAdd_ext _ _) (storeExt_trans (storeAdd_ext _ _)
        (storeExt_trans (storeAdd_ext _ _) (storeAdd_ext _ _)))
    · exact findIdx_ext (storeExt_trans (storeAdd_ext _ _)
        (storeExt_trans (storeAdd_ext _ _) (storeAdd_ext _ _))) (storeAdd_spec _ _).2.1
    · exact findIdx_ext (storeExt_trans (storeAdd_ext _ _) (storeAdd_ext _ _))
        (storeAdd_spec _ _).2.1
    · exact findIdx_ext (storeAdd_ext _ _) (storeAdd_spec _ _).2.1
    · exact (storeAdd_spec _ _).2.1

/-- Ingesting the same image again, from the resulting store or any
extension of it, finds every blob already present: it performs no write
and returns the identical record (same root handle, same decorated
manifest, same layer cids), with only the ambient store exchanged. -/
theorem addImageFull_stable {s : Store} {img : Image} {r : AddResult} {u : Store}
    (h : addImageFull s img = .ok r) (hext : StoreExt r.store u) :
    addImageFull u img = .ok { r with store := u } := by
  obtain ⟨hcv, htable, hmB, hidxO, hiB, hwO, _, _, _, _, _⟩ := addImageFull_ok h
  obtain ⟨hwlExt, hfC, hfM, hfI, hfW⟩ := addImageFull_finds h
  have hwlu : writeLayers u img.layers = (u, (writeLayers s img.layers).2) :=
    writeLayers_stable rfl (storeExt_trans hwlExt hext)
  have hcfga : storeAdd u (.raw img.rawConfig) = (u, r.cfgCid) := by
    have h2 := storeAdd_stable (findIdx_ext hext hfC.1)
    rwa [Nat.sub_add_cancel hfC.2] at h2
  have hma : storeAdd u r.manifestBlob = (u, r.manifestCid) := by
    have h2 := storeAdd_stable (findIdx_ext hext hfM.1)
    rwa [Nat.sub_add_cancel hfM.2] at h2
  have hja : storeAdd u r.indexBlob = (u, r.indexCid) := by
    have h2 := storeAdd_stable (findIdx_ext hext hfI.1)
    rwa [Nat.sub_add_cancel hfI.2] at h2
  have hwa : storeAdd u (.wrapperJson r.wrapperObj) = (u, r.root) := by
    have h2 := storeAdd_stable (findIdx_ext hext hfW.1)
    rwa [Nat.sub_add_cancel hfW.2] at h2
  simp only [addImageFull, hwlu, hcfga, ← htable, hcv, ← hmB, hma, ← hidxO, ← hiB, hja,
    ← hwO, hwa]

/-- Claim C1 witness: the theorem applied to the concrete image imgA
ingested into the empty store. -/
theorem claim1_witness :
    addImageFull [] imgA = .ok rA ∧
    ReadBlob rA.store (.valid rA.root) imgA.manifest.config.digest
      = .ok (.raw imgA.rawConfig, ociImageConfigMT) ∧
    ReadBlob rA.store (.valid rA.root) (layerDigest "LAYER-A")
      = .ok (.raw "LAYER-A", "application/vnd.oci.image.layer.v1.tar+gzip") :=
  ⟨by decide,
   (claim1_resolve_config_and_layers [] imgA rA (by decide) (by decide) (by decide)
      (by decide) (by decide)).1,
   (claim1_resolve_config_and_layers [] imgA rA (by decide) (by decide) (by decide)
      (by decide) (by decide)).2 0
      { mediaType := "application/vnd.oci.image.layer.v1.tar+gzip",
        digest := layerDigest "LAYER-A", size := 7, urls := [] }
      "LAYER-A" (by decide) (by decide)⟩

/-- Claim C2: for every ingested image, resolving the reference "latest"
against the returned root handle performs one hop (wrapper to wrapping
index) and returns the wrapping index's bytes with the media type declared
in the wrapper record, never the manifest's or a layer's bytes. -/
theorem claim2_latest_returns_wrapping_index
    (s0 : Store) (img : Image) (r : AddResult)
    (hadd : addImageFull s0 img = .ok r) :
    ReadManifest r.store (.valid r.root) "latest"
      = .ok (r.indexBlob, r.wrapperObj.mediaType) ∧
    r.wrapperObj.mediaType = ociImageIndexMT ∧
    (∀ m, r.indexBlob ≠ .manifestJson m) ∧
    (∀ bs, r.indexBlob ≠ .raw bs) := by
  obtain ⟨hcv, htable, hmB, hidxO, hiB, hwO, hgetRoot, hgetIdx, hgetM, hgetCfg, hlay⟩ :=
    addImageFull_ok hadd
  have hstep1 : step (.wrapperJson r.wrapperObj)
      = .ok (r.indexCid, r.wrapperObj.digest, r.wrapperObj.mediaType) :=
    step_wrapper r.wrapperObj r.indexCid (by rw [hwO]) (by rw [hwO]; exact digestOk_blobDigest _)
  refine ⟨?_, by rw [hwO], ?_, ?_⟩
  · simp [ReadManifest, cidDecode, hgetRoot, hstep1, hgetIdx]
  · intro m hc
    rw [hiB] at hc
    simp at hc
  · intro bs hc
    rw [hiB] at hc
    simp at hc

/-- Claim C2 witness: the theorem applied to the concrete ingestion of
imgA. -/
theorem claim2_witness :
    ReadManifest rA.store (.valid rA.root) "latest"
      = .ok (rA.indexBlob, rA.wrapperObj.mediaType) ∧
    rA.wrapperObj.mediaType = ociImageIndexMT :=
  ⟨(claim2_latest_returns_wrapping_index [] imgA rA (by decide)).1,
   (claim2_latest_returns_wrapping_index [] imgA rA (by decide)).2.1⟩

theorem scanFound_append (d : String) (l1 l2 : List Emission) (a : Option (Cid × String)) :
    scanFound d (l1 ++ l2) a = scanFound d l2 (scanFound d l1 a) := by
  simp [scanFound, List.foldl_append]

/-- Claim C3 (amended): the walk always runs to completion and visits, in
order, index node, manifest node, config descriptor and layer descriptors
(opening the wrapper first); among the visited nodes whose digest equals
the requested digest, the LAST one's content and media type are returned
(matches never terminate the walk early); exhausting the walk without a
match is a not-found error, never a panic or an empty success. -/
theorem claim3_walk_last_match_or_not_found :
    (∀ (s : Store) (root : Cid) (d : String) (ems : List Emission),
       walk s root = .ok ems → (∀ em ∈ ems, em.2.1 ≠ d) →
       ReadBlob s (.valid root) d = .err ("didn't find desired digest " ++ d)) ∧
    (∀ (s : Store) (root : Cid) (d : String) (pre post : List Emission)
       (em : Emission) (b : Blob),
       walk s root = .ok (pre ++ em :: post) → em.2.1 = d →
       (∀ em2 ∈ post, em2.2.1 ≠ d) → storeGet s em.1 = some b →
       ReadBlob s (.valid root) d = .ok (b, em.2.2)) ∧
    (∀ (s0 : Store) (img : Image) (r : AddResult), addImageFull s0 img = .ok r →
       walk r.store r.root = .ok
         ((r.indexCid, blobDigest r.indexBlob, ociImageIndexMT) ::
          (r.manifestCid, blobDigest r.manifestBlob, ociImageIndexMT) ::
          (r.cfgCid, img.manifest.config.digest, img.manifest.config.mediaType) ::
          r.manifestObj.layers.map (fun l => (singletonCid l, l.digest, l.mediaType)))) := by
  refine ⟨?_, ?_, ?_⟩
  · intro s root d ems hw hnm
    rw [ReadBlob_walk hw, scanFound_nomatch hnm]
  · intro s root d pre post em b hw hd hpost hget
    have hscan : scanFound d (pre ++ em :: post) none = some (em.1, em.2.2) := by
      rw [scanFound_append, scanFound_cons, if_pos hd.symm]
      exact scanFound_nomatch hpost _
    rw [ReadBlob_walk hw, hscan]
    simp only [hget]
  · intro s0 img r hadd
    exact walk_addImageFull hadd

/-- Claim C3 witness: the amended theorem applied to the crafted graph
whose wrapper and config descriptor share a digest. -/
theorem claim3_witness :
    ReadBlob c3Store (.valid 1) dupDigest = .ok (.raw "THE-CONFIG", "config-mt") ∧
    ReadBlob c3Store (.valid 1) "sha256:absent"
      = .err ("didn't find desired digest " ++ "sha256:absent") :=
  ⟨claim3_walk_last_match_or_not_found.2.1 c3Store 1 dupDigest
      [(2, dupDigest, "wrapper-mt"), (3, "sha256:manifest", "index-mt")] []
      (4, dupDigest, "config-mt") (.raw "THE-CONFIG") (by decide) rfl (by decide) (by decide),
   claim3_walk_last_match_or_not_found.1 c3Store 1 "sha256:absent"
      [(2, dupDigest, "wrapper-mt"), (3, "sha256:manifest", "index-mt"),
       (4, dupDigest, "config-mt")] (by decide) (by decide)⟩

/-- Claim C3 counterexample: in a graph where the wrapper record and the
config descriptor declare the same digest, the first visited matching node
is the index emission (cid 2, media type from the wrapper record), but the
walker returns the config content (cid 4) with the config's media type:
the walk is not terminated at the first match. -/
theorem claim3_counterexample :
    walk c3Store 1 = .ok
      [(2, dupDigest, "wrapper-mt"), (3, "sha256:manifest", "index-mt"),
       (4, dupDigest, "config-mt")] ∧
    storeGet c3Store 2 = some (.indexJson c3Index) ∧
    ReadBlob c3Store (.valid 1) dupDigest = .ok (.raw "THE-CONFIG", "config-mt") ∧
    Blob.raw "THE-CONFIG" ≠ .indexJson c3Index ∧ "config-mt" ≠ "wrapper-mt" := by decide

/-- Claim C4 (amended): resolveCids accepts a single decodable ipfs
locator; more than one locator is the checked error "expected a single
cid, got N"; zero locators make the code index urls[0] out of range: a
runtime panic, not an error. -/
theorem claim4_locator_count (urls : List Locator) :
    (∀ c, urls = [.ipfsLoc c] → resolveCids urls = .ok c) ∧
    (1 < urls.length →
       resolveCids urls = .err ("expected a single cid, got " ++ toString urls.length)) ∧
    (urls = [] → resolveCids urls = .panicked) := by
  refine ⟨?_, ?_, ?_⟩
  · intro c hc
    subst hc
    rfl
  · intro hlen
    unfold resolveCids
    rw [if_pos hlen]
  · intro hc
    subst hc
    rfl

/-- Claim C4 witness: the amended theorem applied to concrete one-, two-
and zero-element locator lists. -/
theorem claim4_witness :
    resolveCids [.ipfsLoc 7] = .ok 7 ∧
    resolveCids [.ipfsLoc 1, .ipfsLoc 2] = .err ("expected a single cid, got " ++ toString 2) ∧
    resolveCids [] = .panicked :=
  ⟨(claim4_locator_count [.ipfsLoc 7]).1 7 rfl,
   (claim4_locator_count [.ipfsLoc 1, .ipfsLoc 2]).2.1 (by decide),
   (claim4_locator_count []).2.2 rfl⟩

/-- Claim C4 counterexample: a zero-element urls list panics instead of
producing the claimed hard error, and the more-than-one error text is
"expected a single cid, got N", not "expected a single content locator". -/
theorem claim4_counterexample :
    resolveCids [] = (.panicked : GoResult Cid) ∧
    resolveCids [.ipfsLoc 1, .ipfsLoc 2] = .err "expected a single cid, got 2" ∧
    "expected a single cid, got 2" ≠ "expected a single content locator" := by decide

/-- Claim C7 (amended): re-ingesting an identical image yields the
IDENTICAL root handle and record - the content-addressed store
deduplicates at every level, the wrapper records included - and in
particular the layer cids recorded in the two decorated manifests
coincide. -/
theorem claim7_reingest_identical {s : Store} {img : Image} {r : AddResult}
    (h : addImageFull s img = .ok r) :
    addImageFull r.store img = .ok r ∧
    AddImage r.store img = .ok (r.store, r.root) := by
  have h2 := addImageFull_stable h (storeExt_refl _)
  refine ⟨h2, ?_⟩
  unfold AddImage
  rw [h2]

/-- Claim C7 witness: the amended theorem applied to the concrete
ingestion of imgA. -/
theorem claim7_witness :
    addImageFull rA.store imgA = .ok rA ∧
    AddImage rA.store imgA = .ok (rA.store, rA.root) :=
  ⟨(claim7_reingest_identical (by decide : addImageFull [] imgA = .ok rA)).1,
   (claim7_reingest_identical (by decide : addImageFull [] imgA = .ok rA)).2⟩

/-- Claim C7 counterexample: ingesting imgA twice returns the same root
handle both times (cids are content-derived), refuting the claim that the
two root handles differ. -/
theorem claim7_counterexample :
    AddImage [] imgA = .ok (rA.store, rA.root) ∧
    AddImage rA.store imgA = .ok (rA.store, rA.root) := by decide

/-- Claim C10: for every manifests or blobs request whose reference fails
to parse as a digest or whose walk/read fails with an error, the handler
writes nothing, so the client sees HTTP 200 with an empty body and no
Content-Type; a success serving a zero-length raw blob gives the same
status and body. -/
theorem claim10_failures_yield_empty_200 (s : Store) (cp : CidParam) (reference : String) :
    (∀ e, ReadManifest s cp reference = .err e →
       getManifestHandler s cp reference = .ok emptyOkResponse) ∧
    (∀ e, digestParse reference = .err e →
       getBlobsHandler s cp reference = .ok emptyOkResponse) ∧
    (∀ d e, digestParse reference = .ok d → ReadBlob s cp d = .err e →
       getBlobsHandler s cp reference = .ok emptyOkResponse) ∧
    emptyOkResponse.status = 200 ∧ emptyOkResponse.body = "" ∧
    emptyOkResponse.contentType = none ∧
    (∀ mt, ReadManifest s cp reference = .ok (.raw "", mt) →
       getManifestHandler s cp reference
         = .ok { status := 200, contentType := some mt, body := "" }) := by
  refine ⟨?_, ?_, ?_, rfl, rfl, rfl, ?_⟩
  · intro e he
    simp [getManifestHandler, he]
  · intro e he
    simp [getBlobsHandler, he]
  · intro d e hd he
    simp [getBlobsHandler, hd, he]
  · intro mt hm
    simp [getManifestHandler, hm, blobBody]

/-- Claim C10 witness: the theorem applied to concrete failing requests
against the empty store. -/
theorem claim10_witness :
    getManifestHandler [] (.valid 1) "latest" = .ok emptyOkResponse ∧
    getBlobsHandler [] (.valid 1) "latest" = .ok emptyOkResponse ∧
    getBlobsHandler [] (.valid 1) "sha256:absent" = .ok emptyOkResponse :=
  ⟨(claim10_failures_yield_empty_200 [] (.valid 1) "latest").1 "open failed" (by decide),
   (claim10_failures_yield_empty_200 [] (.valid 1) "latest").2.1
     ("invalid digest format: " ++ "latest") (by decide),
   (claim10_failures_yield_empty_200 [] (.valid 1) "sha256:absent").2.2.1
     "sha256:absent" "open failed" (by decide) (by decide)⟩

/-! Naming-service lemmas. -/

theorem updateCidMap_ok {st : ClusterState} {ref : String} {op : Cid} {k : String} {mc : Cid}
    {entries : List (String × String)}
    (hs : st.secretKey = some k) (hr : st.ipnsRecord = some mc)
    (hb : storeGet st.store mc = some (.mapJson entries)) :
    updateCidMap st ref op = .ok
      ({ st with
         store := (storeAdd st.store (.mapJson (mapInsert entries ref (pathString op)))).1,
         ipnsRecord := some (storeAdd st.store (.mapJson (mapInsert entries ref (pathString op)))).2 },
       (storeAdd st.store (.mapJson (mapInsert entries ref (pathString op)))).2) := by
  simp [updateCidMap, hs, ipnsResolve, hr, hb, namePublish]

theorem mapGet_mapInsert (l : List (String × String)) (k v : String) :
    mapGet (mapInsert l k v) k = some v := by
  induction l with
  | nil => simp [mapInsert, mapGet]
  | cons p rest ih =>
    obtain ⟨k0, v0⟩ := p
    by_cases hp : k0 = k
    · simp [mapInsert, hp, mapGet]
    · simp [mapInsert, hp, mapGet, ih]

/-- Claim C5 (amended): Update(ref, cid) immediately followed by
Resolve(ref), with no concurrent writer, a peered store whose
publish/resolve round-trips the published blob, and an existing Name Map,
returns the stored /ipfs/ locator of cid PROVIDED ref is already in
canonical form (ParseReference(ref).Name() = ref): Update keys the map by
the raw ref string while Resolve looks up the canonicalized reference. -/
theorem claim5_update_resolve_roundtrip
    (st : ClusterState) (ref : String) (op : Cid) (k : String) (mc : Cid)
    (entries : List (String × String))
    (hp : 0 < st.peers) (hs : st.secretKey = some k) (hr : st.ipnsRecord = some mc)
    (hb : storeGet st.store mc = some (.mapJson entries))
    (hc : canonicalName ref = .ok ref) :
    ∀ st2 nc, updateCidMap st ref op = .ok (st2, nc) →
      Resolve st2 ref = .ok (pathString op) := by
  intro st2 nc hu
  rw [updateCidMap_ok hs hr hb] at hu
  simp only [Except.ok.injEq, Prod.mk.injEq] at hu
  obtain ⟨h1, h2⟩ := hu
  subst h1
  have hget := (storeAdd_spec st.store (.mapJson (mapInsert entries ref (pathString op)))).1
  simp only [Resolve, fetchCidMap, ipnsResolve, hs, hget]
  rw [if_neg (by show ¬(st.peers = 0); omega)]
  rw [hc]
  simp [mapGet_mapInsert]

/-- Claim C5 witness: the amended theorem applied to a canonical reference
on the concrete peered state c5State. -/
theorem claim5_witness :
    Resolve
      { c5State with
        store := (storeAdd c5State.store
          (.mapJson (mapInsert [] "index.docker.io/library/alpine:latest" (pathString 7)))).1,
        ipnsRecord := some (storeAdd c5State.store
          (.mapJson (mapInsert [] "index.docker.io/library/alpine:latest" (pathString 7)))).2 }
      "index.docker.io/library/alpine:latest" = .ok (pathString 7) :=
  claim5_update_resolve_roundtrip c5State "index.docker.io/library/alpine:latest" 7
    "k51name" 1 [] (by decide) rfl rfl (by decide) (by decide) _ _
    (updateCidMap_ok rfl rfl (by decide))

/-- Claim C5 counterexample: Update("alpine", 7) succeeds, but the
immediately following Resolve("alpine") fails with not-found, because
Update keyed the map by the raw string "alpine" while Resolve looks up
the canonical name "index.docker.io/library/alpine:latest". -/
theorem claim5_counterexample :
    updateCidMap c5State "alpine" 7
      = .ok ({ store := [.mapJson [], .mapJson [("alpine", pathString 7)]],
               ipnsRecord := some 2, secretKey := some "k51name", peers := 2 }, 2) ∧
    Resolve { store := [.mapJson [], .mapJson [("alpine", pathString 7)]],
              ipnsRecord := some 2, secretKey := some "k51name", peers := 2 } "alpine"
      = .error ("cid does not exist for reference " ++ "index.docker.io/library/alpine:latest") := by
  decide

/-- Claim C6 (amended): Update fails with an error when the Name Map does
not exist yet (the naming key resolves to nothing); when the key resolves
to an existing map blob it inserts/overwrites the entry, re-serializes,
writes the new blob and publishes it under the naming key with offline
publication allowed (the state's peer count is unconstrained, so this
holds even with zero connected peers). -/
theorem claim6_update_requires_existing_map (st : ClusterState) (ref : String) (op : Cid) :
    (∀ k, st.secretKey = some k → st.ipnsRecord = none →
       updateCidMap st ref op = .error "ipns name resolve failed") ∧
    (∀ k mc entries, st.secretKey = some k → st.ipnsRecord = some mc →
       storeGet st.store mc = some (.mapJson entries) →
       updateCidMap st ref op = .ok
         ({ st with
            store := (storeAdd st.store (.mapJson (mapInsert entries ref (pathString op)))).1,
            ipnsRecord := some (storeAdd st.store (.mapJson (mapInsert entries ref (pathString op)))).2 },
          (storeAdd st.store (.mapJson (mapInsert entries ref (pathString op)))).2)) := by
  constructor
  · intro k hs hr
    simp [updateCidMap, hs, ipnsResolve, hr]
  · intro k mc entries hs hr hb
    exact updateCidMap_ok hs hr hb

/-- Claim C6 witness: the amended theorem applied to the concrete state
without a published map (error) and to a zero-peer state with an existing
map (success, offline publication). -/
theorem claim6_witness :
    updateCidMap c6State "example.com/repo:v1" 9 = .error "ipns name resolve failed" ∧
    updateCidMap offState "example.com/repo:v1" 9
      = .ok ({ offState with
               store := (storeAdd offState.store
                 (.mapJson (mapInsert [] "example.com/repo:v1" (pathString 9)))).1,
               ipnsRecord := some (storeAdd offState.store
                 (.mapJson (mapInsert [] "example.com/repo:v1" (pathString 9)))).2 },
             (storeAdd offState.store
               (.mapJson (mapInsert [] "example.com/repo:v1" (pathString 9)))).2) :=
  ⟨(claim6_update_requires_existing_map c6State "example.com/repo:v1" 9).1 "k51name" rfl rfl,
   (claim6_update_requires_existing_map offState "example.com/repo:v1" 9).2 "k51name" 1 []
     rfl rfl (by decide)⟩

/-- Claim C6 counterexample: with the cluster secret in place but no Name
Map published yet, Update returns an error instead of treating the missing
map as empty and succeeding. -/
theorem claim6_counterexample :
    updateCidMap c6State "example.com/repo:v1" 9 = .error "ipns name resolve failed" := by
  decide

/-! Webhook loop lemmas. -/

theorem processContainers_none (resolve : Resolver) (registry : String) {cs : List Container}
    (h : ∀ c ∈ cs, ∃ e, resolve c.image = .error e) :
    processContainers resolve registry cs = (cs, []) := by
  induction cs with
  | nil => rfl
  | cons c rest ih =>
    obtain ⟨e, he⟩ := h c (by simp)
    have hr := ih (fun x hx => h x (by simp [hx]))
    simp [processContainers, hr, he]

theorem processContainers_single (resolve : Resolver) (registry : String) :
    ∀ {cs : List Container} {i : Nat} {c : Container} {cid2 : String},
    cs.get? i = some c → resolve c.image = .ok cid2 →
    (∀ j c2, j ≠ i → cs.get? j = some c2 → ∃ e, resolve c2.image = .error e) →
    processContainers resolve registry cs
      = (cs.set i { c with image := joinRegistryPath registry cid2 },
         [(c.image, joinRegistryPath registry cid2)]) := by
  intro cs
  induction cs with
  | nil => intro i c cid2 h _ _; simp at h
  | cons c0 rest ih =>
    intro i c cid2 hi hok hothers
    cases i with
    | zero =>
      rw [List.get?_cons_zero] at hi
      injection hi with hi
      subst hi
      have hrest : processContainers resolve registry rest = (rest, []) := by
        apply processContainers_none resolve registry
        intro x hx
        obtain ⟨j, hj⟩ := List.get?_of_mem hx
        exact hothers (j + 1) x (by omega) (by rw [List.get?_cons_succ]; exact hj)
      simp [processContainers, hrest, hok]
    | succ j =>
      rw [List.get?_cons_succ] at hi
      obtain ⟨e0, he0⟩ := hothers 0 c0 (by omega) (by rw [List.get?_cons_zero])
      have hrest := ih hi hok
        (fun k c2 hk hke => hothers (k + 1) c2 (by omega) (by rw [List.get?_cons_succ]; exact hke))
      simp [processContainers, hrest, he0]

theorem processContainers_get_err (resolve : Resolver) (registry : String) :
    ∀ {cs : List Container} {i : Nat} {c : Container} {e : String},
    cs.get? i = some c → resolve c.image = .error e →
    (processContainers resolve registry cs).1.get? i = some c := by
  intro cs
  induction cs with
  | nil => intro i c e h _; simp at h
  | cons c0 rest ih =>
    intro i c e hi he
    cases i with
    | zero =>
      rw [List.get?_cons_zero] at hi
      injection hi with hi
      subst hi
      simp [processContainers, he]
    | succ j =>
      rw [List.get?_cons_succ] at hi
      have hr := ih hi he
      cases hres : resolve c0.image with
      | error e0 =>
        simp only [processContainers, hres]
        rw [List.get?_cons_succ]
        exact hr
      | ok cid2 =>
        simp only [processContainers, hres]
        rw [List.get?_cons_succ]
        exact hr

/-- Claim C8: for every admitted pod in which exactly one container's
image resolves (all init containers and all other containers fail to
resolve), the mutator responds with a patch touching only that container's
image field; for a pod in which no image resolves it responds allowed with
no patch. -/
theorem claim8_patch_touches_only_resolved_image
    (resolve : Resolver) (registry : String) (pod : Pod) :
    (∀ i c cid2, pod.containers.get? i = some c → resolve c.image = .ok cid2 →
       (∀ c2 ∈ pod.initContainers, ∃ e, resolve c2.image = .error e) →
       (∀ j c2, j ≠ i → pod.containers.get? j = some c2 → ∃ e, resolve c2.image = .error e) →
       Handle resolve registry (.decodable pod) = .patched
         { pod with
           containers := pod.containers.set i ({ c with image := joinRegistryPath registry cid2 }) }) ∧
    ((∀ c2 ∈ pod.initContainers, ∃ e, resolve c2.image = .error e) →
     (∀ c2 ∈ pod.containers, ∃ e, resolve c2.image = .error e) →
     Handle resolve registry (.decodable pod) = .allowed "no image resolutions found") := by
  constructor
  · intro i c cid2 hi hok hinit hothers
    have h1 := processContainers_none resolve registry hinit
    have h2 := processContainers_single resolve registry hi hok hothers
    simp [Handle, h1, h2]
  · intro hinit hcont
    have h1 := processContainers_none resolve registry hinit
    have h2 := processContainers_none resolve registry hcont
    simp [Handle, h1, h2]

/-- Claim C8 witness: the theorem applied to concrete pods - one with
exactly one resolving container, one with none. -/
theorem claim8_witness :
    Handle resolverA "reg.local:5000" (.decodable podA)
      = .patched { podA with
          containers := podA.containers.set 0 ({ name := "main", image := joinRegistryPath "reg.local:5000" "/ipfs/42" }) } ∧
    Handle resolverA "reg.local:5000" (.decodable podNone)
      = .allowed "no image resolutions found" :=
  ⟨(claim8_patch_touches_only_resolved_image resolverA "reg.local:5000" podA).1 0
      { name := "main", image := "docker.io/library/app:v1" } "/ipfs/42" rfl rfl
      (by
        intro c2 hc2
        simp [podA] at hc2
        subst hc2
        exact ⟨"cid does not exist", rfl⟩)
      (by
        intro j c2 hj hg
        match j with
        | 0 => exact absurd rfl hj
        | 1 =>
          simp [podA] at hg
          subst hg
          exact ⟨"cid does not exist", rfl⟩
        | Nat.succ (Nat.succ n) => simp [podA] at hg),
   (claim8_patch_touches_only_resolved_image resolverA "reg.local:5000" podNone).2
      (by intro c2 hc2; simp [podNone] at hc2)
      (by
        intro c2 hc2
        simp [podNone] at hc2
        subst hc2
        exact ⟨"cid does not exist", rfl⟩)⟩

/-- Claim C9: the mutator never fails the admission request when image
resolution fails for a container (the field is left untouched and
processing continues); only a decode failure of the incoming pod is
surfaced as a request error (code 400). -/
theorem claim9_resolution_miss_never_errors (resolve : Resolver) (registry : String) :
    (∀ pod code, Handle resolve registry (.decodable pod) ≠ .errored code) ∧
    Handle resolve registry .undecodable = .errored 400 ∧
    (∀ pod pod2, Handle resolve registry (.decodable pod) = .patched pod2 →
       pod2.name = pod.name ∧
       (∀ i c e, pod.initContainers.get? i = some c → resolve c.image = .error e →
          pod2.initContainers.get? i = some c) ∧
       (∀ i c e, pod.containers.get? i = some c → resolve c.image = .error e →
          pod2.containers.get? i = some c)) := by
  refine ⟨?_, rfl, ?_⟩
  · intro pod code
    simp only [Handle]
    split
    · simp
    · simp
  · intro pod pod2 hp
    simp only [Handle] at hp
    split at hp
    · injection hp with hp
      subst hp
      refine ⟨rfl, ?_, ?_⟩
      · intro i c e hi he
        exact processContainers_get_err resolve registry hi he
      · intro i c e hi he
        exact processContainers_get_err resolve registry hi he
    · exact absurd hp (by simp)

/-- Claim C9 witness: the theorem applied to the concrete resolver and
pods; the init container whose image does not resolve is untouched in the
patched pod. -/
theorem claim9_witness :
    Handle resolverA "reg.local:5000" .undecodable = .errored 400 ∧
    Handle resolverA "reg.local:5000" (.decodable podA) ≠ .errored 500 ∧
    podAPatched.initContainers.get? 0 = some { name := "init1", image := "busybox" } :=
  ⟨(claim9_resolution_miss_never_errors resolverA "reg.local:5000").2.1,
   (claim9_resolution_miss_never_errors resolverA "reg.local:5000").1 podA 500,
   (((claim9_resolution_miss_never_errors resolverA "reg.local:5000").2.2 podA podAPatched
       (by decide)).2.1 0 { name := "init1", image := "busybox" } "cid does not exist"
     (by decide) (by decide))⟩

end Ripfs
